import Mathlib

/-!
Verification of the sorterbot labeltool core: the rotational bounding-box
projection (`Player.calc_new_rectangle_position`), rectangle creation
(`Player.onMouseClick`), viewport culling (`Player.is_rect_in_bounds`),
the frame-sampling cadence and dataset export (`Player.export`), the
sidecar-config persistence (`Player.__init__` / `Player.export`), and the
accept/skip/undo verification loop (`Verify.verify_images` /
`Verify.export_to_dataset`).

Python floats are modelled by `ℝ` (for the trigonometric projection) and
`ℚ` (for the purely rational arithmetic); Python's `int()` truncation
toward zero is modelled explicitly.
-/

/-- A stored rectangle, as appended by `Player.onMouseClick`:
`((left, top), (right, bottom), tracker_position, category)`. -/
structure Rect where
  topLeft : ℤ × ℤ
  bottomRight : ℤ × ℤ
  anchor : ℕ
  category : ℕ
deriving DecidableEq

/-- Python `int()` applied to a float: truncation toward zero, on `ℝ`. -/
noncomputable def pyIntR (x : ℝ) : ℤ := if 0 ≤ x then ⌊x⌋ else ⌈x⌉

/-- Python `int()` applied to a float: truncation toward zero, on `ℚ`. -/
def pyIntQ (x : ℚ) : ℤ := if 0 ≤ x then ⌊x⌋ else ⌈x⌉

/-- The new-rectangle-center computation of `Player.calc_new_rectangle_position`
(src/src/player.py lines 161-188): convert the rectangle center to a polar
coordinate around the pivot `(half_w, radius + half_h)` (with the source's
additive `0.000001` guards), advance the angle proportionally to the frame
delta, and convert back. -/
noncomputable def calcCenter (radius maxAngle totalFrames halfW halfH : ℝ)
    (r : Rect) (trackerPos : ℕ) : ℝ × ℝ :=
  let boxW : ℤ := r.bottomRight.1 - r.topLeft.1
  let boxH : ℤ := r.bottomRight.2 - r.topLeft.2
  let angleOld : ℝ := maxAngle * (r.anchor : ℝ) / totalFrames
  let angleNew : ℝ := maxAngle * (trackerPos : ℝ) / totalFrames
  let x1 : ℝ := (r.topLeft.1 : ℝ) + (boxW : ℝ) / 2
  let y1 : ℝ := (r.topLeft.2 : ℝ) + (boxH : ℝ) / 2
  let gammaOld : ℝ := Real.arctan ((halfW - x1) / (radius + halfH - y1 + 0.000001))
  let gammaOldDeg : ℝ := gammaOld * 180 / Real.pi
  let polarRadius : ℝ := (halfW - x1) / (Real.sin gammaOld + 0.000001)
  let gammaNewDeg : ℝ := gammaOldDeg + (angleNew - angleOld)
  let gammaNew : ℝ := gammaNewDeg * Real.pi / 180
  (halfW - Real.sin gammaNew * polarRadius,
   radius + halfH - Real.cos gammaNew * polarRadius)

/-- `Player.calc_new_rectangle_position` (src/src/player.py lines 138-193):
the projected rectangle, with each corner truncated by Python's `int()`. -/
noncomputable def calcNewRectanglePosition (radius maxAngle totalFrames halfW halfH : ℝ)
    (r : Rect) (trackerPos : ℕ) : Rect :=
  let boxW : ℤ := r.bottomRight.1 - r.topLeft.1
  let boxH : ℤ := r.bottomRight.2 - r.topLeft.2
  let c := calcCenter radius maxAngle totalFrames halfW halfH r trackerPos
  { topLeft := (pyIntR (c.1 - (boxW : ℝ) / 2), pyIntR (c.2 - (boxH : ℝ) / 2)),
    bottomRight := (pyIntR (c.1 + (boxW : ℝ) / 2), pyIntR (c.2 + (boxH : ℝ) / 2)),
    anchor := r.anchor,
    category := r.category }

/-- The `EVENT_LBUTTONUP` branch of `Player.onMouseClick`
(src/src/player.py lines 127-133): normalize the two corners with min/max
and append the rectangle. -/
def onMouseUp (rects : List Rect) (downX downY x y : ℤ) (trackerPos : ℕ)
    (category : ℕ) : List Rect :=
  rects ++ [{ topLeft := (min downX x, min downY y),
              bottomRight := (max downX x, max downY y),
              anchor := trackerPos,
              category := category }]

/-- `Player.is_rect_in_bounds` (src/src/player.py line 347). -/
def is_rect_in_bounds (r : Rect) (frameDims : ℤ × ℤ) : Bool :=
  r.topLeft.1 > 0 && r.topLeft.2 > 0 &&
  r.bottomRight.1 < frameDims.1 && r.bottomRight.2 < frameDims.2

/-- The frame-sampling rule of `Player.export` (src/src/player.py lines
376-378): the frame indices `f ∈ [0, totalFrames)` with
`(export_offset + f) % export_interval == 0`, in loop order. -/
def sampledFrames (totalFrames exportInterval exportOffset : ℕ) : List ℕ :=
  (List.range totalFrames).filter (fun f => (exportOffset + f) % exportInterval == 0)

/-- A logged decision of `Verify.verify_images`: the strings `"added"` /
`"skipped"` stored in the `actions` dict. -/
inductive VAction
  | added
  | skipped
deriving DecidableEq

/-- One key press in `Verify.verify_images`: `+` (key 43) accepts, `-`
(key 45) undoes, any other key skips. -/
inductive Decision
  | accept
  | undo
  | skip
deriving DecidableEq

/-- The loop state of `Verify.verify_images`: cursor `i`, the
`verified_data` list, and the `actions` dict (most recent binding first,
as Python's dict assignment overwrites). -/
structure VState (α : Type) where
  i : ℕ
  verified : List α
  actions : List (ℕ × VAction)
deriving DecidableEq

/-- Lookup in the `actions` dict: the most recent binding for a key. -/
def logged (log : List (ℕ × VAction)) (j : ℕ) : Option VAction :=
  List.lookup j log

/-- One iteration of the `while` loop of `Verify.verify_images`
(src/src/verify.py lines 79-108), given the pressed key. `undo` at `i = 0`
hits the `KeyError` branch (`actions[-1]` is never present) and leaves the
state unchanged; `undo` after a skip only moves the cursor back; `undo`
after an accept also pops `verified_data`. -/
def verifyStep [Inhabited α] (cands : List α) (s : VState α) : Decision → VState α
  | .accept =>
      { i := s.i + 1,
        verified := s.verified ++ [cands.getD s.i default],
        actions := (s.i, VAction.added) :: s.actions }
  | .undo =>
      if s.i = 0 then s
      else
        match logged s.actions (s.i - 1) with
        | none => s
        | some .added =>
            { i := s.i - 1, verified := s.verified.dropLast, actions := s.actions }
        | some .skipped =>
            { i := s.i - 1, verified := s.verified, actions := s.actions }
  | .skip =>
      { i := s.i + 1,
        verified := s.verified,
        actions := (s.i, VAction.skipped) :: s.actions }

/-- The `while` loop of `Verify.verify_images` driven by a finite key
sequence; the loop exits as soon as the cursor reaches the candidate
count. -/
def verifyRun [Inhabited α] (cands : List α) (s : VState α) : List Decision → VState α
  | [] => s
  | d :: ds =>
      if s.i = cands.length then s
      else verifyRun cands (verifyStep cands s d) ds

/-- The initial state of `Verify.verify_images`: cursor 0, nothing
verified, empty decision log. -/
def vInit (α : Type) : VState α := { i := 0, verified := [], actions := [] }

/-- The candidates `j < i` whose most recent logged action is `added`, in
index order — the intended reading of `verified_data`. -/
def acceptedView [Inhabited α] (cands : List α) (log : List (ℕ × VAction)) (i : ℕ) :
    List α :=
  ((List.range i).filter (fun j => logged log j == some VAction.added)).map
    (fun j => cands.getD j default)

/-- The loop invariant of `Verify.verify_images`: `verified_data` is the
accepted view of the log, and every index below the cursor has been
logged. -/
def VInv [Inhabited α] (cands : List α) (s : VState α) : Prop :=
  s.verified = acceptedView cands s.actions s.i ∧
  ∀ j, j < s.i → (logged s.actions j).isSome

/-- `Player.scale_rect` (src/src/player.py lines 195-216): scale a
display-space rectangle up to the source video resolution, truncating each
coordinate with `int()`. Returns `(left, top, right, bottom)`. -/
def scale_rect (videoW videoH : ℚ) (frameDims : ℤ × ℤ) (r : Rect) : ℤ × ℤ × ℤ × ℤ :=
  (pyIntQ ((r.topLeft.1 : ℚ) * videoW / (frameDims.1 : ℚ)),
   pyIntQ ((r.topLeft.2 : ℚ) * videoH / (frameDims.2 : ℚ)),
   pyIntQ ((r.bottomRight.1 : ℚ) * videoW / (frameDims.1 : ℚ)),
   pyIntQ ((r.bottomRight.2 : ℚ) * videoH / (frameDims.2 : ℚ)))

/-- One element of the `annotations` list of a dataset dictionary
(src/src/player.py lines 405-409). -/
structure AnnotationEntry where
  bbox : ℤ × ℤ × ℤ × ℤ
  bbox_mode : ℕ
  category_id : ℕ
deriving DecidableEq

/-- One dataset dictionary appended by `Player.export`
(src/src/player.py lines 400-410). -/
structure AnnotationRecord where
  file_name : String
  width : ℚ
  height : ℚ
  image_id : String
  annotations : List AnnotationEntry
deriving DecidableEq

/-- The projected-and-culled rectangles of one frame
(src/src/player.py lines 379-386): project every stored rectangle to the
frame, keep those within the viewport. The projection function is a
parameter because the real one (`calcNewRectanglePosition`) is
real-valued. -/
def visibleRects (calcRect : Rect → ℕ → Rect) (frameDims : ℤ × ℤ)
    (rects : List Rect) (f : ℕ) : List Rect :=
  (rects.map (fun r => calcRect r f)).filter (fun r => is_rect_in_bounds r frameDims)

/-- The image file path written for one exported frame
(src/src/player.py line 397). -/
def frameFilePath (exportPath videoName : String) (f : ℕ) : String :=
  exportPath ++ "/" ++ videoName ++ "_" ++ toString f ++ ".jpg"

/-- The dataset dictionary built for one exported frame
(src/src/player.py lines 400-410). -/
def mkAnnotationRecord (videoW videoH : ℚ) (frameDims : ℤ × ℤ)
    (exportPath videoName : String) (f : ℕ) (toExport : List Rect) :
    AnnotationRecord :=
  { file_name := frameFilePath exportPath videoName f,
    width := videoW,
    height := videoH,
    image_id := videoName ++ "_" ++ toString f,
    annotations := toExport.map (fun r =>
      { bbox := scale_rect videoW videoH frameDims r,
        bbox_mode := 0,
        category_id := r.category }) }

/-- The body of the export loop of `Player.export` (src/src/player.py
lines 376-418) over a list of sampled frame indices. For each frame:
project and cull; skip the frame when nothing survives; otherwise grab
the frame, append the dataset dictionary, and either write the image file
(on grab success) or raise, which aborts the run. The result is either
`.ok (records, written image files, exported count)` or
`.error (failing frame index, image files already written)` — files
written before the failure stay on disk. -/
def exportFrames (calcRect : Rect → ℕ → Rect) (grab : ℕ → Bool)
    (videoW videoH : ℚ) (frameDims : ℤ × ℤ) (exportPath videoName : String)
    (rects : List Rect) :
    List ℕ → Except (ℕ × List String) (List AnnotationRecord × List String × ℕ)
  | [] => Except.ok ([], [], 0)
  | f :: fs =>
      let toExport := visibleRects calcRect frameDims rects f
      if toExport.isEmpty then
        exportFrames calcRect grab videoW videoH frameDims exportPath videoName rects fs
      else
        if grab f then
          match exportFrames calcRect grab videoW videoH frameDims exportPath videoName rects fs with
          | Except.ok (recs, files, n) =>
              Except.ok (mkAnnotationRecord videoW videoH frameDims exportPath videoName f toExport :: recs,
                frameFilePath exportPath videoName f :: files, n + 1)
          | Except.error (i, files) =>
              Except.error (i, frameFilePath exportPath videoName f :: files)
        else
          Except.error (f, [])

/-- `Player.export` (src/src/player.py lines 349-439): run the export loop
over the sampled frames. -/
def exportDataset (calcRect : Rect → ℕ → Rect) (grab : ℕ → Bool)
    (videoW videoH : ℚ) (frameDims : ℤ × ℤ) (exportPath videoName : String)
    (rects : List Rect) (totalFrames exportInterval exportOffset : ℕ) :
    Except (ℕ × List String) (List AnnotationRecord × List String × ℕ) :=
  exportFrames calcRect grab videoW videoH frameDims exportPath videoName rects
    (sampledFrames totalFrames exportInterval exportOffset)

/-- Python division: raises `ZeroDivisionError` exactly when the divisor
is zero. -/
def pyDiv (a b : ℚ) : Except String ℚ :=
  if b = 0 then Except.error "ZeroDivisionError" else Except.ok (a / b)

/-- The per-image train/val partition of `Verify.export_to_dataset`
(src/src/verify.py lines 188-200), with the per-item Bernoulli draw
`train_ratio > random.random()` abstracted as a boolean for each item
index. -/
def splitTrainVal (draw : ℕ → Bool) : ℕ → List α → List α × List α
  | _, [] => ([], [])
  | i, x :: xs =>
      let tv := splitTrainVal draw (i + 1) xs
      if draw i then (x :: tv.1, tv.2) else (tv.1, x :: tv.2)

/-- The summary computation ending `Verify.export_to_dataset`
(src/src/verify.py lines 208-211):
`count_kept = len(data["train"]) + len(data["val"])`,
`count_total = len(self.all_data)`, and the printed kept ratio
`count_kept / count_total` — a Python division that raises when
`count_total` is zero. -/
def exportSummary (allData verified : List AnnotationRecord) (draw : ℕ → Bool) :
    Except String ℚ :=
  let tv := splitTrainVal draw 0 verified
  pyDiv ((tv.1.length + tv.2.length : ℕ) : ℚ) ((allData.length : ℕ) : ℚ)

/-- A JSON value, as produced by `json.dump` / consumed by `json.load`
for the sidecar config (numbers are exact here; the ints and
repr-round-tripping floats the tool writes are a subset of `ℚ`). -/
inductive JsonValue
  | num (q : ℚ)
  | str (s : String)
  | arr (xs : List JsonValue)
  | obj (kvs : List (String × JsonValue))

/-- The in-memory sidecar config of one video
(src/src/player.py lines 42-55 and 426-437):
`{rectangles, radius, max_angle, export_interval, export_offset}`. -/
structure SidecarConfig where
  rectangles : List Rect
  radius : ℚ
  max_angle : ℚ
  export_interval : ℕ
  export_offset : ℕ
deriving DecidableEq

/-- JSON encoding of one stored rectangle
`((left, top), (right, bottom), anchor, category)` as written by
`json.dump` in `Player.export` (tuples become arrays). -/
def encodeRect (r : Rect) : JsonValue :=
  JsonValue.arr
    [JsonValue.arr [JsonValue.num (r.topLeft.1 : ℚ), JsonValue.num (r.topLeft.2 : ℚ)],
     JsonValue.arr [JsonValue.num (r.bottomRight.1 : ℚ), JsonValue.num (r.bottomRight.2 : ℚ)],
     JsonValue.num (r.anchor : ℚ),
     JsonValue.num (r.category : ℚ)]

/-- A JSON number read back as the integer it was written from. -/
def qToZ (q : ℚ) : Option ℤ :=
  if q.den = 1 then some q.num else none

/-- A JSON number read back as the natural number it was written from. -/
def qToN (q : ℚ) : Option ℕ :=
  if q.den = 1 ∧ 0 ≤ q.num then some q.num.toNat else none

/-- Decoding of one rectangle from the sidecar JSON, positional as the
player indexes it (`old_rect_points[0][0]` etc.). -/
def decodeRect : JsonValue → Option Rect
  | JsonValue.arr [JsonValue.arr [JsonValue.num l, JsonValue.num t],
      JsonValue.arr [JsonValue.num rr, JsonValue.num b],
      JsonValue.num a, JsonValue.num c] => do
      let l' ← qToZ l
      let t' ← qToZ t
      let r' ← qToZ rr
      let b' ← qToZ b
      let a' ← qToN a
      let c' ← qToN c
      pure { topLeft := (l', t'), bottomRight := (r', b'), anchor := a', category := c' }
  | _ => none

/-- The config dictionary written by `Player.export`
(src/src/player.py lines 429-435). -/
def encodeConfig (c : SidecarConfig) : JsonValue :=
  JsonValue.obj
    [("rectangles", JsonValue.arr (c.rectangles.map encodeRect)),
     ("radius", JsonValue.num c.radius),
     ("max_angle", JsonValue.num c.max_angle),
     ("export_interval", JsonValue.num (c.export_interval : ℚ)),
     ("export_offset", JsonValue.num (c.export_offset : ℚ))]

/-- Key lookup in a decoded JSON object, as `config["radius"]` etc. in
`Player.__init__` (src/src/player.py lines 51-55). -/
def jsonField (j : JsonValue) (k : String) : Option JsonValue :=
  match j with
  | JsonValue.obj kvs => List.lookup k kvs
  | _ => none

/-- Reading the sidecar config back at session start
(src/src/player.py lines 44-55). -/
def decodeConfig (j : JsonValue) : Option SidecarConfig := do
  let rectsJ ← jsonField j "rectangles"
  let rects ← match rectsJ with
    | JsonValue.arr xs => xs.mapM decodeRect
    | _ => none
  let radius ← match jsonField j "radius" with
    | some (JsonValue.num q) => some q
    | _ => none
  let maxAngle ← match jsonField j "max_angle" with
    | some (JsonValue.num q) => some q
    | _ => none
  let ei ← match jsonField j "export_interval" with
    | some (JsonValue.num q) => qToN q
    | _ => none
  let eo ← match jsonField j "export_offset" with
    | some (JsonValue.num q) => qToN q
    | _ => none
  pure { rectangles := rects, radius := radius, max_angle := maxAngle,
         export_interval := ei, export_offset := eo }

/-- The `config... if config_found else default` selection of
`Player.__init__` (src/src/player.py lines 51-55): when a sidecar config
was loaded its values win over the constructor defaults. -/
def initSessionConfig (loaded : Option SidecarConfig) (radius max_angle : ℚ)
    (export_interval export_offset : ℕ) : SidecarConfig :=
  match loaded with
  | some c =>
      { rectangles := c.rectangles, radius := c.radius, max_angle := c.max_angle,
        export_interval := c.export_interval, export_offset := c.export_offset }
  | none =>
      { rectangles := [], radius := radius, max_angle := max_angle,
        export_interval := export_interval, export_offset := export_offset }

/-- C3: the frame sampler returns, in increasing order, exactly the frame
indices `f ∈ [0, totalFrames)` with `(exportOffset + f) % exportInterval = 0`;
on `(100, 18, 3)` it returns exactly `[15, 33, 51, 69, 87]`. -/
theorem sampledFrames_spec (totalFrames exportInterval exportOffset : ℕ) :
    (∀ f, f ∈ sampledFrames totalFrames exportInterval exportOffset ↔
      f < totalFrames ∧ (exportOffset + f) % exportInterval = 0) ∧
    List.Sorted (· < ·) (sampledFrames totalFrames exportInterval exportOffset) ∧
    sampledFrames 100 18 3 = [15, 33, 51, 69, 87] := by
  refine ⟨fun f => ?_, ?_, by decide⟩
  · simp [sampledFrames, List.mem_filter, List.mem_range]
  · exact (List.pairwise_lt_range totalFrames).sublist (List.filter_sublist _)

/-- C4 counterexample: releasing the mouse at the press point (coincident
corners `(5,7)` and `(5,7)`) does not fail; the zero-area box is appended
silently, and the stored rectangle violates the strict invariant
`topLeft.x < bottomRight.x`. -/
theorem onMouseUp_accepts_zero_area :
    onMouseUp [] 5 7 5 7 0 0 =
      [{ topLeft := (5, 7), bottomRight := (5, 7), anchor := 0, category := 0 }] ∧
    ¬ ((5 : ℤ) < 5 ∧ (7 : ℤ) < 7) := by
  constructor
  · rfl
  · decide

/-- C4 amended: adding a rectangle normalizes the two corners to (min, max)
in each axis regardless of drag direction, so every stored rectangle
satisfies the non-strict invariant `topLeft.x ≤ bottomRight.x` and
`topLeft.y ≤ bottomRight.y`; coincident corners are not rejected — the
zero-area box is appended like any other. -/
theorem onMouseUp_normalizes (rects : List Rect) (downX downY x y : ℤ)
    (trackerPos category : ℕ) :
    onMouseUp rects downX downY x y trackerPos category =
      rects ++ [{ topLeft := (min downX x, min downY y),
                  bottomRight := (max downX x, max downY y),
                  anchor := trackerPos,
                  category := category }] ∧
    min downX x ≤ max downX x ∧ min downY y ≤ max downY y := by
  exact ⟨rfl, le_trans (min_le_left _ _) (le_max_left _ _),
    le_trans (min_le_left _ _) (le_max_left _ _)⟩

/-- C2: over 5 candidates, the decision sequence
`[Accept, Accept, Undo, Skip, Accept]` leaves `verified_data = [c0, c2]`
and the cursor at `i = 3`. -/
theorem verify_trace_five (α : Type) [Inhabited α] (c0 c1 c2 c3 c4 : α) :
    (verifyRun [c0, c1, c2, c3, c4] (vInit α)
        [Decision.accept, Decision.accept, Decision.undo, Decision.skip,
         Decision.accept]).verified = [c0, c2] ∧
    (verifyRun [c0, c1, c2, c3, c4] (vInit α)
        [Decision.accept, Decision.accept, Decision.undo, Decision.skip,
         Decision.accept]).i = 3 := by
  exact ⟨rfl, rfl⟩

theorem logged_cons_ne (log : List (ℕ × VAction)) (k j : ℕ) (a : VAction)
    (h : j ≠ k) : logged ((k, a) :: log) j = logged log j := by
  have hb : (j == k) = false := beq_eq_false_iff_ne.mpr h
  simp [logged, List.lookup, hb]

theorem logged_cons_self (log : List (ℕ × VAction)) (k : ℕ) (a : VAction) :
    logged ((k, a) :: log) k = some a := by
  simp [logged, List.lookup]

theorem acceptedView_cons_high [Inhabited α] (cands : List α)
    (log : List (ℕ × VAction)) (i k : ℕ) (a : VAction) (hk : i ≤ k) :
    acceptedView cands ((k, a) :: log) i = acceptedView cands log i := by
  unfold acceptedView
  congr 1
  apply List.filter_congr
  intro j hj
  rw [List.mem_range] at hj
  rw [logged_cons_ne log k j a (by omega)]

theorem acceptedView_succ [Inhabited α] (cands : List α)
    (log : List (ℕ × VAction)) (i : ℕ) :
    acceptedView cands log (i + 1) =
      acceptedView cands log i ++
        (if logged log i = some VAction.added then [cands.getD i default] else []) := by
  unfold acceptedView
  rw [List.range_succ, List.filter_append, List.map_append]
  congr 1
  by_cases h : logged log i = some VAction.added <;> simp [h]

theorem vInv_init [Inhabited α] (cands : List α) : VInv cands (vInit α) := by
  constructor
  · rfl
  · intro j hj
    exact absurd hj (Nat.not_lt_zero j)

theorem vInv_step [Inhabited α] (cands : List α) (s : VState α) (d : Decision)
    (h : VInv cands s) : VInv cands (verifyStep cands s d) := by
  obtain ⟨hv, hl⟩ := h
  cases d with
  | accept =>
      refine ⟨?_, ?_⟩
      · show s.verified ++ [cands.getD s.i default] =
          acceptedView cands ((s.i, VAction.added) :: s.actions) (s.i + 1)
        rw [acceptedView_succ, acceptedView_cons_high cands s.actions s.i s.i _ le_rfl,
          logged_cons_self, if_pos rfl, hv]
      · intro j hj
        have hj' : j < s.i + 1 := hj
        show (logged ((s.i, VAction.added) :: s.actions) j).isSome = true
        rcases Nat.lt_or_ge j s.i with hlt | hge
        · rw [logged_cons_ne s.actions s.i j _ (by omega)]
          exact hl j hlt
        · have hji : j = s.i := by omega
          rw [hji, logged_cons_self]
          rfl
  | skip =>
      refine ⟨?_, ?_⟩
      · show s.verified =
          acceptedView cands ((s.i, VAction.skipped) :: s.actions) (s.i + 1)
        rw [acceptedView_succ, acceptedView_cons_high cands s.actions s.i s.i _ le_rfl,
          logged_cons_self]
        simp [hv]
      · intro j hj
        have hj' : j < s.i + 1 := hj
        show (logged ((s.i, VAction.skipped) :: s.actions) j).isSome = true
        rcases Nat.lt_or_ge j s.i with hlt | hge
        · rw [logged_cons_ne s.actions s.i j _ (by omega)]
          exact hl j hlt
        · have hji : j = s.i := by omega
          rw [hji, logged_cons_self]
          rfl
  | undo =>
      by_cases h0 : s.i = 0
      · have hstep : verifyStep cands s Decision.undo = s := by
          simp [verifyStep, h0]
        rw [hstep]
        exact ⟨hv, hl⟩
      · obtain ⟨n, hn⟩ : ∃ n, s.i = n + 1 := ⟨s.i - 1, by omega⟩
        have hn' : s.i - 1 = n := by omega
        cases ha : logged s.actions (s.i - 1) with
        | none =>
            have hstep : verifyStep cands s Decision.undo = s := by
              simp [verifyStep, h0, ha]
            rw [hstep]
            exact ⟨hv, hl⟩
        | some a =>
            rw [hn'] at ha
            cases a with
            | added =>
                have hstep : verifyStep cands s Decision.undo =
                    { i := s.i - 1, verified := s.verified.dropLast,
                      actions := s.actions } := by
                  simp [verifyStep, h0, hn', ha]
                rw [hstep]
                refine ⟨?_, ?_⟩
                · show s.verified.dropLast = acceptedView cands s.actions (s.i - 1)
                  rw [hv, hn, Nat.add_sub_cancel, acceptedView_succ, ha,
                    if_pos rfl, List.dropLast_concat]
                · intro j hj
                  have hj' : j < s.i - 1 := hj
                  exact hl j (by omega)
            | skipped =>
                have hstep : verifyStep cands s Decision.undo =
                    { i := s.i - 1, verified := s.verified,
                      actions := s.actions } := by
                  simp [verifyStep, h0, hn', ha]
                rw [hstep]
                refine ⟨?_, ?_⟩
                · show s.verified = acceptedView cands s.actions (s.i - 1)
                  rw [hv, hn, Nat.add_sub_cancel, acceptedView_succ, ha]
                  simp
                · intro j hj
                  have hj' : j < s.i - 1 := hj
                  exact hl j (by omega)

theorem vInv_run [Inhabited α] (cands : List α) (s : VState α) (ds : List Decision)
    (h : VInv cands s) : VInv cands (verifyRun cands s ds) := by
  induction ds generalizing s with
  | nil => exact h
  | cons d ds ih =>
      show VInv cands (if s.i = cands.length then s else verifyRun cands (verifyStep cands s d) ds)
      by_cases hc : s.i = cands.length
      · rw [if_pos hc]
        exact h
      · rw [if_neg hc]
        exact ih _ (vInv_step cands s d h)

theorem acceptedView_getLast [Inhabited α] (cands : List α)
    (log : List (ℕ × VAction)) (i : ℕ) (h1 : 1 ≤ i)
    (h2 : logged log (i - 1) = some VAction.added) :
    (acceptedView cands log i).getLast? = some (cands.getD (i - 1) default) := by
  obtain ⟨n, hn⟩ : ∃ n, i = n + 1 := ⟨i - 1, by omega⟩
  subst hn
  rw [Nat.add_sub_cancel] at h2 ⊢
  rw [acceptedView_succ, h2, if_pos rfl, List.getLast?_concat]

/-- C9: starting from cursor 0, empty `verified_data` and empty log, after
any sequence of Accept/Skip/Undo steps, `verified_data` equals, in order,
exactly the candidates `j < i` whose most recent logged action is
`added`; consequently, whenever the log at `i - 1` is `added`, the last
element of `verified_data` is candidate `i - 1` — exactly the element
Undo's pop removes. -/
theorem verify_loop_invariant [Inhabited α] (cands : List α) (ds : List Decision) :
    (verifyRun cands (vInit α) ds).verified =
      acceptedView cands (verifyRun cands (vInit α) ds).actions
        (verifyRun cands (vInit α) ds).i ∧
    (1 ≤ (verifyRun cands (vInit α) ds).i →
      logged (verifyRun cands (vInit α) ds).actions
          ((verifyRun cands (vInit α) ds).i - 1) = some VAction.added →
      (verifyRun cands (vInit α) ds).verified.getLast? =
        some (cands.getD ((verifyRun cands (vInit α) ds).i - 1) default)) := by
  have h := vInv_run cands (vInit α) ds (vInv_init cands)
  refine ⟨h.1, fun h1 h2 => ?_⟩
  rw [h.1]
  exact acceptedView_getLast cands _ _ h1 h2

/-- C9 witness: with candidates `[5, 6]` and the single decision Accept,
the invariant and its Undo consequence hold concretely: `verified = [5]`
is the accepted view, and the last accepted element is candidate 0. -/
theorem verify_loop_invariant_witness :
    (verifyRun [5, 6] (vInit ℕ) [Decision.accept]).verified =
      acceptedView [5, 6] (verifyRun [5, 6] (vInit ℕ) [Decision.accept]).actions
        (verifyRun [5, 6] (vInit ℕ) [Decision.accept]).i ∧
    (verifyRun [5, 6] (vInit ℕ) [Decision.accept]).verified.getLast? = some 5 :=
  ⟨(verify_loop_invariant [5, 6] [Decision.accept]).1,
   (verify_loop_invariant [5, 6] [Decision.accept]).2 (by decide) (by decide)⟩

theorem exportFrames_error (calcRect : Rect → ℕ → Rect) (grab : ℕ → Bool)
    (videoW videoH : ℚ) (frameDims : ℤ × ℤ) (exportPath videoName : String)
    (rects : List Rect) (frames : List ℕ) (i : ℕ) (files : List String)
    (h : exportFrames calcRect grab videoW videoH frameDims exportPath videoName rects frames
          = Except.error (i, files)) :
    grab i = false ∧
    visibleRects calcRect frameDims rects i ≠ [] ∧
    ∃ pre post, frames = pre ++ i :: post ∧
      files = (pre.filter
          (fun f => !(visibleRects calcRect frameDims rects f).isEmpty)).map
        (frameFilePath exportPath videoName) ∧
      ∀ f ∈ pre, (visibleRects calcRect frameDims rects f) ≠ [] → grab f = true := by
  induction frames generalizing i files with
  | nil => simp [exportFrames] at h
  | cons f fs ih =>
      rw [exportFrames] at h
      by_cases he : (visibleRects calcRect frameDims rects f).isEmpty
      · rw [if_pos he] at h
        obtain ⟨hg, hv, pre, post, hfr, hfi, hpre⟩ := ih i files h
        refine ⟨hg, hv, f :: pre, post, by simp [hfr], ?_, ?_⟩
        · rw [List.filter_cons_of_neg (by simp [he])]
          exact hfi
        · intro g hg'
          rcases List.mem_cons.mp hg' with hg2 | hg2
          · subst hg2
            intro hne
            exact absurd (List.isEmpty_iff.mp he) hne
          · exact hpre g hg2
      · rw [if_neg he] at h
        by_cases hgf : grab f
        · rw [if_pos hgf] at h
          cases hrec : exportFrames calcRect grab videoW videoH frameDims exportPath videoName rects fs with
          | ok v =>
              rw [hrec] at h
              obtain ⟨recs, fls, n⟩ := v
              simp at h
          | error e =>
              rw [hrec] at h
              obtain ⟨i', files'⟩ := e
              simp only [Except.error.injEq, Prod.mk.injEq] at h
              obtain ⟨hi', hfiles⟩ := h
              subst hi'
              subst hfiles
              obtain ⟨hg, hv, pre, post, hfr, hfi, hpre⟩ := ih _ _ hrec
              refine ⟨hg, hv, f :: pre, post, by simp [hfr], ?_, ?_⟩
              · rw [List.filter_cons_of_pos (by simp [he]), List.map_cons, ← hfi]
              · intro g hg'
                rcases List.mem_cons.mp hg' with hg2 | hg2
                · subst hg2
                  intro _
                  exact hgf
                · exact hpre g hg2
        · rw [if_neg hgf] at h
          simp only [Except.error.injEq, Prod.mk.injEq] at h
          obtain ⟨hi, hfiles⟩ := h
          subst hi
          subst hfiles
          refine ⟨by simpa using hgf, by simpa using he, [], fs, rfl, rfl, by simp⟩

/-- C7: if the export run fails, it fails by raising an error that carries
the failing sampled frame index `i` (a sampled frame with a nonempty
visible set whose grab returned failure), and the image files already
written for earlier sampled frames are exactly the files of the sampled
frames before `i` that had a nonempty visible set — none are removed or
rolled back. -/
theorem export_abort_on_grab_failure (calcRect : Rect → ℕ → Rect) (grab : ℕ → Bool)
    (videoW videoH : ℚ) (frameDims : ℤ × ℤ) (exportPath videoName : String)
    (rects : List Rect) (totalFrames exportInterval exportOffset : ℕ)
    (i : ℕ) (files : List String)
    (h : exportDataset calcRect grab videoW videoH frameDims exportPath videoName rects
          totalFrames exportInterval exportOffset = Except.error (i, files)) :
    i ∈ sampledFrames totalFrames exportInterval exportOffset ∧
    grab i = false ∧
    visibleRects calcRect frameDims rects i ≠ [] ∧
    ∃ pre post,
      sampledFrames totalFrames exportInterval exportOffset = pre ++ i :: post ∧
      files = (pre.filter
          (fun f => !(visibleRects calcRect frameDims rects f).isEmpty)).map
        (frameFilePath exportPath videoName) ∧
      ∀ f ∈ pre, (visibleRects calcRect frameDims rects f) ≠ [] → grab f = true := by
  obtain ⟨hg, hv, pre, post, hfr, hfi, hpre⟩ :=
    exportFrames_error calcRect grab videoW videoH frameDims exportPath videoName rects
      (sampledFrames totalFrames exportInterval exportOffset) i files h
  exact ⟨by rw [hfr]; simp, hg, hv, pre, post, hfr, hfi, hpre⟩

/-- C7 witness: with one in-bounds rectangle, identity projection, frames
`[0, 2]` sampled and the grab succeeding only at frame 0, the export run
aborts at frame 2 (a sampled frame with a nonempty visible set whose grab
failed), keeping the image written for frame 0. -/
theorem export_abort_on_grab_failure_witness :
    ((fun f => f == 0) 2 : Bool) = false ∧
    visibleRects (fun r _ => r) (10, 10)
      [{ topLeft := (1, 1), bottomRight := (2, 2), anchor := 0, category := 0 }] 2 ≠ [] ∧
    2 ∈ sampledFrames 4 2 0 := by
  have h := export_abort_on_grab_failure (fun r _ => r) (fun f => f == 0) 200 100
    (10, 10) "exports" "vid.avi"
    [{ topLeft := (1, 1), bottomRight := (2, 2), anchor := 0, category := 0 }]
    4 2 0 2 [frameFilePath "exports" "vid.avi" 0] rfl
  exact ⟨h.2.1, h.2.2.1, h.1⟩

theorem exportFrames_ok (calcRect : Rect → ℕ → Rect) (grab : ℕ → Bool)
    (videoW videoH : ℚ) (frameDims : ℤ × ℤ) (exportPath videoName : String)
    (rects : List Rect) (frames : List ℕ) (recs : List AnnotationRecord)
    (files : List String) (n : ℕ)
    (h : exportFrames calcRect grab videoW videoH frameDims exportPath videoName rects frames
          = Except.ok (recs, files, n)) :
    recs = ((frames.filter
        (fun f => !(visibleRects calcRect frameDims rects f).isEmpty)).map
      (fun f => mkAnnotationRecord videoW videoH frameDims exportPath videoName f
        (visibleRects calcRect frameDims rects f))) ∧
    files = ((frames.filter
        (fun f => !(visibleRects calcRect frameDims rects f).isEmpty)).map
      (frameFilePath exportPath videoName)) ∧
    n = ((frames.filter
        (fun f => !(visibleRects calcRect frameDims rects f).isEmpty)).length) := by
  induction frames generalizing recs files n with
  | nil =>
      simp only [exportFrames, Except.ok.injEq, Prod.mk.injEq] at h
      obtain ⟨h1, h2, h3⟩ := h
      subst h1
      subst h2
      subst h3
      simp
  | cons f fs ih =>
      rw [exportFrames] at h
      by_cases he : (visibleRects calcRect frameDims rects f).isEmpty
      · rw [if_pos he] at h
        obtain ⟨h1, h2, h3⟩ := ih recs files n h
        rw [List.filter_cons_of_neg (by simp [he])]
        exact ⟨h1, h2, h3⟩
      · rw [if_neg he] at h
        by_cases hgf : grab f
        · rw [if_pos hgf] at h
          cases hrec : exportFrames calcRect grab videoW videoH frameDims exportPath videoName rects fs with
          | ok v =>
              rw [hrec] at h
              obtain ⟨recs', files', n'⟩ := v
              simp only [Except.ok.injEq, Prod.mk.injEq] at h
              obtain ⟨h1, h2, h3⟩ := h
              subst h1
              subst h2
              subst h3
              obtain ⟨h1, h2, h3⟩ := ih recs' files' n' hrec
              rw [List.filter_cons_of_pos (by simp [he])]
              refine ⟨?_, ?_, ?_⟩
              · rw [List.map_cons, ← h1]
              · rw [List.map_cons, ← h2]
              · rw [List.length_cons, ← h3]
          | error e =>
              rw [hrec] at h
              simp at h
        · rw [if_neg hgf] at h
          simp at h

/-- C8: on a successful export run, the emitted records are exactly one
per sampled frame with a nonempty visible (projected and culled)
rectangle set, each built from that surviving set; consequently no record
has an empty annotations list, and the image files written are exactly
those of the same frames — a frame whose surviving set is empty yields
neither a record nor an image. -/
theorem export_records_iff_visible (calcRect : Rect → ℕ → Rect) (grab : ℕ → Bool)
    (videoW videoH : ℚ) (frameDims : ℤ × ℤ) (exportPath videoName : String)
    (rects : List Rect) (totalFrames exportInterval exportOffset : ℕ)
    (recs : List AnnotationRecord) (files : List String) (n : ℕ)
    (h : exportDataset calcRect grab videoW videoH frameDims exportPath videoName rects
          totalFrames exportInterval exportOffset = Except.ok (recs, files, n)) :
    recs = (((sampledFrames totalFrames exportInterval exportOffset).filter
        (fun f => !(visibleRects calcRect frameDims rects f).isEmpty)).map
      (fun f => mkAnnotationRecord videoW videoH frameDims exportPath videoName f
        (visibleRects calcRect frameDims rects f))) ∧
    (∀ a ∈ recs, a.annotations ≠ []) ∧
    files = (((sampledFrames totalFrames exportInterval exportOffset).filter
        (fun f => !(visibleRects calcRect frameDims rects f).isEmpty)).map
      (frameFilePath exportPath videoName)) := by
  obtain ⟨h1, h2, h3⟩ :=
    exportFrames_ok calcRect grab videoW videoH frameDims exportPath videoName rects
      (sampledFrames totalFrames exportInterval exportOffset) recs files n h
  refine ⟨h1, ?_, h2⟩
  intro a ha
  rw [h1] at ha
  obtain ⟨f, hf, rfl⟩ := List.mem_map.mp ha
  have hne : ¬ (visibleRects calcRect frameDims rects f).isEmpty := by
    have := (List.mem_filter.mp hf).2
    simpa using this
  simp only [mkAnnotationRecord, ne_eq, List.map_eq_nil_iff]
  intro hc
  exact hne (by simp [hc])

/-- C8 witness: with frames `[0, 2]` sampled, a projection that stays in
bounds at frame 0 and leaves the viewport at frame 2, the successful run
emits exactly the frame-0 record (with nonempty annotations) and writes
exactly the frame-0 image. -/
theorem export_records_iff_visible_witness :
    (mkAnnotationRecord 200 100 (10, 10) "exports" "vid.avi" 0
      (visibleRects
        (fun r f => if f = 0 then r else
          { topLeft := (0, 0), bottomRight := (2, 2), anchor := r.anchor,
            category := r.category })
        (10, 10)
        [{ topLeft := (1, 1), bottomRight := (2, 2), anchor := 0, category := 0 }]
        0)).annotations ≠ [] ∧
    [frameFilePath "exports" "vid.avi" 0] =
      (((sampledFrames 4 2 0).filter
          (fun f => !(visibleRects
            (fun r f => if f = 0 then r else
              { topLeft := (0, 0), bottomRight := (2, 2), anchor := r.anchor,
                category := r.category })
            (10, 10)
            [{ topLeft := (1, 1), bottomRight := (2, 2), anchor := 0, category := 0 }]
            f).isEmpty)).map
        (frameFilePath "exports" "vid.avi")) := by
  have h := export_records_iff_visible
    (fun r f => if f = 0 then r else
      { topLeft := (0, 0), bottomRight := (2, 2), anchor := r.anchor,
        category := r.category })
    (fun _ => true) 200 100 (10, 10) "exports" "vid.avi"
    [{ topLeft := (1, 1), bottomRight := (2, 2), anchor := 0, category := 0 }]
    4 2 0
    [mkAnnotationRecord 200 100 (10, 10) "exports" "vid.avi" 0
      (visibleRects
        (fun r f => if f = 0 then r else
          { topLeft := (0, 0), bottomRight := (2, 2), anchor := r.anchor,
            category := r.category })
        (10, 10)
        [{ topLeft := (1, 1), bottomRight := (2, 2), anchor := 0, category := 0 }]
        0)]
    [frameFilePath "exports" "vid.avi" 0] 1 rfl
  exact ⟨h.2.1 _ (List.mem_singleton.mpr rfl), h.2.2⟩

/-- C10: if the concatenation of loaded records is empty, the
dataset-export step fails with `ZeroDivisionError` when computing the
final kept ratio; with at least one loaded record the ratio is always
defined. -/
theorem exportSummary_div_by_zero (allData verified : List AnnotationRecord)
    (draw : ℕ → Bool) :
    (allData = [] →
      exportSummary allData verified draw = Except.error "ZeroDivisionError") ∧
    (allData ≠ [] → (exportSummary allData verified draw).isOk = true) := by
  constructor
  · intro h
    subst h
    simp [exportSummary, pyDiv]
  · intro h
    have hlen : ((allData.length : ℕ) : ℚ) ≠ 0 := by
      have hp := List.length_pos.mpr h
      exact_mod_cast Nat.pos_iff_ne_zero.mp hp
    simp [exportSummary, pyDiv, hlen, Except.isOk, Except.toBool]

/-- C10 witness: with zero loaded records the summary raises
`ZeroDivisionError`; with one loaded record it is defined. -/
theorem exportSummary_div_by_zero_witness :
    exportSummary [] [] (fun _ => true) = Except.error "ZeroDivisionError" ∧
    (exportSummary
        [{ file_name := "a.jpg", width := 200, height := 100, image_id := "a",
           annotations := [] }] [] (fun _ => true)).isOk = true :=
  ⟨(exportSummary_div_by_zero [] [] (fun _ => true)).1 rfl,
   (exportSummary_div_by_zero
      [{ file_name := "a.jpg", width := 200, height := 100, image_id := "a",
         annotations := [] }] [] (fun _ => true)).2 (by simp)⟩

theorem decodeRect_encodeRect (r : Rect) : decodeRect (encodeRect r) = some r := by
  obtain ⟨⟨lx, ly⟩, ⟨rx, ry⟩, a, c⟩ := r
  simp [encodeRect, decodeRect, qToZ, qToN]

theorem mapM_decodeRect (rs : List Rect) :
    (rs.map encodeRect).mapM decodeRect = some rs := by
  induction rs with
  | nil => rfl
  | cons r rs ih =>
      rw [List.map_cons, List.mapM_cons, decodeRect_encodeRect, ih]
      rfl

theorem mapM_loop_decodeRect (rs : List Rect) :
    List.mapM.loop decodeRect (rs.map encodeRect) [] = some rs :=
  mapM_decodeRect rs

/-- C6: writing the sidecar config at export time and reloading it at the
next session start reproduces exactly the same rectangle list and the
same calibration values, and the loaded values override the constructor
defaults. -/
theorem sidecar_roundtrip (c : SidecarConfig) (radius max_angle : ℚ)
    (export_interval export_offset : ℕ) :
    decodeConfig (encodeConfig c) = some c ∧
    initSessionConfig (decodeConfig (encodeConfig c)) radius max_angle
      export_interval export_offset = c := by
  have hdec : decodeConfig (encodeConfig c) = some c := by
    obtain ⟨rects, rad, ma, ei, eo⟩ := c
    simp only [decodeConfig, encodeConfig, jsonField, List.lookup, qToN,
      Rat.den_natCast, Rat.num_natCast, Int.toNat_natCast]
    simp [mapM_loop_decodeRect]
  refine ⟨hdec, ?_⟩
  rw [hdec]
  rfl

theorem pyIntR_width (a : ℝ) (w : ℤ) (hw : 0 ≤ w) (ha : 0 ≤ a - (w : ℝ) / 2) :
    pyIntR (a + (w : ℝ) / 2) - pyIntR (a - (w : ℝ) / 2) = w := by
  have hwr : (0 : ℝ) ≤ (w : ℝ) := by exact_mod_cast hw
  have h2 : 0 ≤ a + (w : ℝ) / 2 := by linarith
  rw [pyIntR, if_pos h2, pyIntR, if_pos ha]
  have hsum : a + (w : ℝ) / 2 = (a - (w : ℝ) / 2) + (w : ℤ) := by
    ring
  rw [hsum, Int.floor_add_int]
  ring

/-- C5 amended: the projection preserves the rectangle's width and height
before the per-corner `int()` truncation (the real-valued corners differ
by exactly the input width/height), and the truncated corners preserve
them exactly whenever the projected top-left corner is still nonnegative
in both axes before truncation; when the box straddles zero the
truncation toward zero can shrink a side by one pixel. -/
theorem calc_size_preserved_of_nonneg (radius maxAngle totalFrames halfW halfH : ℝ)
    (r : Rect) (t : ℕ)
    (hw : r.topLeft.1 ≤ r.bottomRight.1) (hh : r.topLeft.2 ≤ r.bottomRight.2)
    (hx : 0 ≤ (calcCenter radius maxAngle totalFrames halfW halfH r t).1
          - ((r.bottomRight.1 - r.topLeft.1 : ℤ) : ℝ) / 2)
    (hy : 0 ≤ (calcCenter radius maxAngle totalFrames halfW halfH r t).2
          - ((r.bottomRight.2 - r.topLeft.2 : ℤ) : ℝ) / 2) :
    (calcNewRectanglePosition radius maxAngle totalFrames halfW halfH r t).bottomRight.1
      - (calcNewRectanglePosition radius maxAngle totalFrames halfW halfH r t).topLeft.1
      = r.bottomRight.1 - r.topLeft.1 ∧
    (calcNewRectanglePosition radius maxAngle totalFrames halfW halfH r t).bottomRight.2
      - (calcNewRectanglePosition radius maxAngle totalFrames halfW halfH r t).topLeft.2
      = r.bottomRight.2 - r.topLeft.2 := by
  constructor
  · exact pyIntR_width (calcCenter radius maxAngle totalFrames halfW halfH r t).1
      (r.bottomRight.1 - r.topLeft.1) (by omega) hx
  · exact pyIntR_width (calcCenter radius maxAngle totalFrames halfW halfH r t).2
      (r.bottomRight.2 - r.topLeft.2) (by omega) hy

theorem calcCenter_straddle_eval :
    (calcCenter (541999999/1000000) 180 2 1000 500
      { topLeft := (247, 40), bottomRight := (253, 44), anchor := 0, category := 0 } 1).1
    = 1000/600001 := by
  simp only [calcCenter]
  norm_num
  have hsqrt : Real.sqrt (1 + (3/4:ℝ)^2) = 5/4 := by
    rw [show (1 + (3/4:ℝ)^2) = (5/4:ℝ)^2 by norm_num]
    exact Real.sqrt_sq (by norm_num)
  have hsin : Real.sin (Real.arctan (3/4)) = 3/5 := by
    rw [Real.sin_arctan, hsqrt]
    norm_num
  have hgn : (Real.arctan (3/4) * 180 / Real.pi + 90) * Real.pi / 180
      = Real.arctan (3/4) + Real.pi/2 := by
    have hpi := Real.pi_ne_zero
    field_simp
    ring
  rw [hgn, Real.sin_add_pi_div_two, Real.cos_arctan, hsqrt, hsin]
  norm_num

/-- C5 counterexample: for the rectangle `(247,40)-(253,44)` (width 6)
anchored at frame 0, projected to frame 1 with
`radius = 541.999999`, `max_angle = 180`, `total_frames = 2`,
`half_w = 1000`, `half_h = 500`, the projected center lands just right of
zero (`x2 = 1000/600001 ≈ 0.0017`), and the per-corner `int()` truncation
toward zero yields corners `-2` and `3`: the projected width is 5, not
the input width 6. -/
theorem calc_width_not_preserved :
    (calcNewRectanglePosition (541999999/1000000) 180 2 1000 500
      { topLeft := (247, 40), bottomRight := (253, 44), anchor := 0, category := 0 } 1).bottomRight.1
    - (calcNewRectanglePosition (541999999/1000000) 180 2 1000 500
      { topLeft := (247, 40), bottomRight := (253, 44), anchor := 0, category := 0 } 1).topLeft.1
    = 5 ∧
    ({ topLeft := (247, 40), bottomRight := (253, 44), anchor := 0, category := 0 } : Rect).bottomRight.1
    - ({ topLeft := (247, 40), bottomRight := (253, 44), anchor := 0, category := 0 } : Rect).topLeft.1
    = 6 := by
  refine ⟨?_, by norm_num⟩
  simp only [calcNewRectanglePosition]
  norm_num
  rw [calcCenter_straddle_eval]
  have ha : pyIntR ((1000:ℝ) / 600001 + 3) = 3 := by
    rw [pyIntR, if_pos (by norm_num)]
    refine Int.floor_eq_iff.mpr ⟨by norm_num, by norm_num⟩
  have hb : pyIntR ((1000:ℝ) / 600001 - 3) = -2 := by
    rw [pyIntR, if_neg (by norm_num)]
    refine Int.ceil_eq_iff.mpr ⟨by norm_num, by norm_num⟩
  rw [ha, hb]
  norm_num

theorem calcCenter_dx0_eval :
    calcCenter 542 180 2 100 500
      { topLeft := (98, 40), bottomRight := (102, 44), anchor := 0, category := 0 } 1
    = (100, 1042) := by
  simp only [calcCenter]
  norm_num [Real.arctan_zero, Real.sin_zero, Prod.mk.injEq]

/-- C5 witness (for the amended claim): projecting the rectangle
`(98,40)-(102,44)` from frame 0 to frame 1 with `radius = 542`,
`max_angle = 180`, `total_frames = 2`, `half_w = 100`, `half_h = 500`
keeps the projected top-left corner nonnegative, and the truncated
corners preserve the width 4 and height 4 exactly. -/
theorem calc_size_preserved_of_nonneg_witness :
    (calcNewRectanglePosition 542 180 2 100 500
      { topLeft := (98, 40), bottomRight := (102, 44), anchor := 0, category := 0 } 1).bottomRight.1
    - (calcNewRectanglePosition 542 180 2 100 500
      { topLeft := (98, 40), bottomRight := (102, 44), anchor := 0, category := 0 } 1).topLeft.1
    = 4 ∧
    (calcNewRectanglePosition 542 180 2 100 500
      { topLeft := (98, 40), bottomRight := (102, 44), anchor := 0, category := 0 } 1).bottomRight.2
    - (calcNewRectanglePosition 542 180 2 100 500
      { topLeft := (98, 40), bottomRight := (102, 44), anchor := 0, category := 0 } 1).topLeft.2
    = 4 := by
  exact calc_size_preserved_of_nonneg 542 180 2 100 500
    { topLeft := (98, 40), bottomRight := (102, 44), anchor := 0, category := 0 } 1
    (by norm_num) (by norm_num)
    (by rw [calcCenter_dx0_eval]; norm_num)
    (by rw [calcCenter_dx0_eval]; norm_num)
